import Mathlib

/-!
# logx: a shallow embedding of `main.go`

The program is an HTTP front end over one MongoDB collection (`log`).  Each
handler of `main.go` performs a single call on the collection and writes a
response.  The embedding makes three things explicit:

* the collection, as the list of the documents it holds (`Collection`);
* what the outside world contributes to one request (`Env`): the clock, the
  identifier the store assigns to an inserted document, and whether the store
  call or the template execution reports an error;
* what a handler writes to its `http.ResponseWriter` (`ResponseWriter`), or
  that it panicked (`Outcome.panic`).

The handlers (`UploadHandler`, `IndexHandler`, `ProjecttHandler`,
`SubjectHandler`, `LogHandler`) are transcribed from `main.go`.  The driver
calls they make (`Insert`, `Find`, `Distinct`, `All`, `One`) and
`bson.ObjectIdHex` live in the `mgo` library and the MongoDB server, outside
the repository; they are modelled here and marked as such.
-/

set_option linter.dupNamespace false

namespace Logx

/-! ## Data model -/

/-- The persisted record, `LogEntry` of `main.go` lines 15-21. -/
structure LogEntry where
  Project : String
  Subject : String
  Body : String
  Timestamp : Int
  MimeType : String
  deriving DecidableEq, Repr

/-- A BSON object identifier (`bson.ObjectId`): twelve bytes. -/
structure ObjectId where
  bytes : List (Fin 256)
  size : bytes.length = 12
  deriving DecidableEq, Repr

/-- A stored document: the `_id` the store assigned, and the fields of the entry. -/
structure Doc where
  id : ObjectId
  entry : LogEntry
  deriving DecidableEq, Repr

/-- The `log` collection reached through `session.DB("").C("log")`, in store order. -/
abbrev Collection := List Doc

/-- The identifiers present in a collection. -/
def ids (c : Collection) : List ObjectId := c.map Doc.id

/-- The struct `LogHeader` of `main.go` lines 158-161: the `(_id, timestamp)` projection. -/
structure LogHeader where
  ID : ObjectId
  Timestamp : Int
  deriving DecidableEq, Repr

/-- The struct `Index` of `main.go` lines 63-65, the data of the index page. -/
structure Index where
  Project : List String
  deriving DecidableEq, Repr

/-- The struct `Project` of `main.go` lines 109-112, the data of a project page. -/
structure Project where
  Project : String
  Subject : List String
  deriving DecidableEq, Repr

/-- The struct `Subject` of `main.go` lines 167-171, the data of a subject page. -/
structure Subject where
  Project : String
  Subject : String
  Header : List LogHeader
  deriving DecidableEq, Repr

/-! ## Requests and responses -/

/-- First value bound to `k` in an association list, `""` when there is none:
the behaviour of indexing a Go `map[string]string` and of `PostFormValue`. -/
def lookupStr (kv : List (String × String)) (k : String) : String :=
  match kv.find? (fun p => p.1 == k) with
  | some p => p.2
  | none => ""

/-- What a handler reads from `*http.Request`: the route variables
(`mux.Vars(r)`) and the posted form. -/
structure Request where
  vars : List (String × String)
  postForm : List (String × String)
  deriving DecidableEq, Repr

/-- Reading `mux.Vars(r)[k]`. -/
def Request.Vars (r : Request) (k : String) : String := lookupStr r.vars k

/-- Reading `r.PostFormValue(k)`. -/
def Request.PostFormValue (r : Request) (k : String) : String := lookupStr r.postForm k

/-- The data a template is executed on. -/
inductive Page where
  | index (d : Index)
  | project (d : Project)
  | subject (d : Subject)
  deriving DecidableEq, Repr

/-- One write on the response: literal text, the rendering of a page, or the
part of a rendering that was written before template execution failed. -/
inductive Chunk where
  | text (s : String)
  | rendered (p : Page)
  | truncated (p : Page)
  deriving DecidableEq, Repr

/-- The observable state of an `http.ResponseWriter`: the `Content-Type`
header, if the handler set one, and the writes in order. -/
structure ResponseWriter where
  contentType : Option String
  body : List Chunk
  deriving DecidableEq, Repr

/-- A fresh response: no header set, nothing written. -/
def ResponseWriter.new : ResponseWriter := ⟨none, []⟩

/-- The call `w.Write([]byte(s))`. -/
def ResponseWriter.Write (w : ResponseWriter) (s : String) : ResponseWriter :=
  ⟨w.contentType, w.body ++ [Chunk.text s]⟩

/-- The call `w.Header().Set("Content-Type", v)`. -/
def ResponseWriter.SetContentType (w : ResponseWriter) (v : String) : ResponseWriter :=
  ⟨some v, w.body⟩

/-- What a handler panicked with.  The only panic the handlers can reach is the
one of `bson.ObjectIdHex`, whose message is `invalid input to ObjectIdHex: `
followed by the rejected input as formatted by Go's `%q`.  The rejected input is
recorded; the formatted text is not modelled. -/
inductive PanicValue where
  | invalidObjectIdHex (input : String)
  deriving DecidableEq, Repr

/-- How a handler invocation ends: it returns, having written `w`, or it panics. -/
inductive Outcome where
  | done (w : ResponseWriter)
  | panic (v : PanicValue)
  deriving DecidableEq, Repr

/-- What the outside world contributes to one request. -/
structure Env where
  /-- Value of `time.Now().Unix()`. -/
  now : Int
  /-- Identifier the store assigns to a document inserted by this request. -/
  newId : ObjectId
  /-- Error reported by the store call of this request, if it fails. -/
  storeErr : Option String
  /-- Error reported by `t.Execute`, if it fails. -/
  execErr : Option String
  deriving DecidableEq, Repr

/-! ## Library functions used by the handlers

These are not part of the repository.  `encoding/hex` and `bson.ObjectIdHex`
follow the Go sources of those libraries; the collection operations follow
the store contract of the specification (section 4.1). -/

/-- The function `fromHexChar` of Go's `encoding/hex`: value of one hexadecimal digit,
upper or lower case. -/
def fromHexChar (c : Char) : Option (Fin 16) :=
  if h : '0'.toNat ≤ c.toNat ∧ c.toNat ≤ '9'.toNat then
    some ⟨c.toNat - '0'.toNat, by simp only [Char.reduceToNat] at h ⊢; omega⟩
  else if h : 'a'.toNat ≤ c.toNat ∧ c.toNat ≤ 'f'.toNat then
    some ⟨c.toNat - 'a'.toNat + 10, by simp only [Char.reduceToNat] at h ⊢; omega⟩
  else if h : 'A'.toNat ≤ c.toNat ∧ c.toNat ≤ 'F'.toNat then
    some ⟨c.toNat - 'A'.toNat + 10, by simp only [Char.reduceToNat] at h ⊢; omega⟩
  else none

/-- The function `hex.DecodeString` of Go on the characters of the input: two digits per
byte; `none` is the error result (odd length or a character that is not a
hexadecimal digit). -/
def hexDecode : List Char → Option (List (Fin 256))
  | [] => some []
  | [_] => none
  | a :: b :: rest =>
    match fromHexChar a, fromHexChar b, hexDecode rest with
    | some x, some y, some d => some (⟨x.val * 16 + y.val, by omega⟩ :: d)
    | _, _, _ => none

/-- The lower-case digit table of `encoding/hex`. -/
def hextable : List Char := "0123456789abcdef".toList

/-- The call `hex.EncodeToString`: two lower-case digits per byte. -/
def hexEncode : List (Fin 256) → List Char
  | [] => []
  | b :: rest => hextable.getD (b.val / 16) '0' :: hextable.getD (b.val % 16) '0' :: hexEncode rest

/-- The method `ObjectId.Hex`: the 24-character hexadecimal form of an identifier. -/
def ObjectId.Hex (i : ObjectId) : String := String.mk (hexEncode i.bytes)

/-- Whether a character is a hexadecimal digit, of either case. -/
def isHexDigit (c : Char) : Prop :=
  ('0'.toNat ≤ c.toNat ∧ c.toNat ≤ '9'.toNat) ∨ ('a'.toNat ≤ c.toNat ∧ c.toNat ≤ 'f'.toNat) ∨
    ('A'.toNat ≤ c.toNat ∧ c.toNat ≤ 'F'.toNat)

instance (c : Char) : Decidable (isHexDigit c) :=
  inferInstanceAs (Decidable (('0'.toNat ≤ c.toNat ∧ c.toNat ≤ '9'.toNat) ∨
    ('a'.toNat ≤ c.toNat ∧ c.toNat ≤ 'f'.toNat) ∨ ('A'.toNat ≤ c.toNat ∧ c.toNat ≤ 'F'.toNat)))

/-- A well-formed identifier string of the store: 24 hexadecimal characters. -/
def wellFormedId (s : String) : Prop :=
  s.length = 24 ∧ ∀ ch ∈ s.toList, isHexDigit ch

instance (s : String) : Decidable (wellFormedId s) :=
  inferInstanceAs (Decidable (s.length = 24 ∧ ∀ ch ∈ s.toList, isHexDigit ch))

/-- The function `bson.ObjectIdHex` of the mgo library: decodes the hexadecimal form of an
identifier.  Its Go signature has a single result, the `ObjectId`, which
`LogHandler` uses directly inside its query (`main.go` line 231); on input
that does not decode to twelve bytes the library panics, which is the
`Except.error` result here, carrying the rejected input. -/
def ObjectIdHex (s : String) : Except PanicValue ObjectId :=
  match hexDecode s.toList with
  | some d => if h : d.length = 12 then .ok ⟨d, h⟩ else .error (.invalidObjectIdHex s)
  | none => .error (.invalidObjectIdHex s)

/-- Modelled from the spec: the mgo driver and the MongoDB server behind
`c.Insert` are not in the repository.  `Insert(entry)` appends one entry, which
is then visible to later reads, or fails with the store's error and writes
nothing.  The store assigns the identifier (`newId`, supplied by the
environment) and keeps identifiers unique: an identifier already present is
rejected as a duplicate key. -/
def Insert (storeErr : Option String) (newId : ObjectId) (c : Collection) (e : LogEntry) :
    Except String Collection :=
  match storeErr with
  | some err => .error err
  | none =>
    if newId ∈ ids c then .error "E11000 duplicate key error"
    else .ok (c ++ [⟨newId, e⟩])

/-- Modelled from the spec: `c.Find(selector)` of the mgo driver, not in the
repository.  The query selects the documents that satisfy the selector, by
exact equality on the named fields; `Find(nil)` selects every document. -/
def Find (c : Collection) (selector : Doc → Bool) : List Doc := c.filter selector

/-- Modelled from the spec: `Query.Distinct(field, &result)` of the mgo driver,
not in the repository.  It yields the unique values of the field over the
selected documents, each once, or the store's error. -/
def Distinct (storeErr : Option String) (q : List Doc) (field : LogEntry → String) :
    Except String (List String) :=
  match storeErr with
  | some err => .error err
  | none => .ok ((q.map (fun d => field d.entry)).dedup)

/-- Modelled from the spec: `Query.Select(_id, timestamp).All(&result)` of the
mgo driver, not in the repository.  It yields the `(id, timestamp)` pair of
every selected document, in store order, or the store's error. -/
def All (storeErr : Option String) (q : List Doc) : Except String (List LogHeader) :=
  match storeErr with
  | some err => .error err
  | none => .ok (q.map (fun d => ⟨d.id, d.entry.Timestamp⟩))

/-- Modelled from the spec: `Query.One(&result)` of the mgo driver, not in the
repository.  It yields the first selected document, fails with `not found`
(mgo's `ErrNotFound`) when the query selects none, or fails with the store's
error. -/
def One (storeErr : Option String) (q : List Doc) : Except String LogEntry :=
  match storeErr with
  | some err => .error err
  | none =>
    match q with
    | [] => .error "not found"
    | d :: _ => .ok d.entry

/-- The call `t.Execute(w, data)`: writes the rendering of the page; when execution fails,
part of the rendering may have been written and the error is returned. -/
def Execute (execErr : Option String) (w : ResponseWriter) (p : Page) :
    ResponseWriter × Option String :=
  match execErr with
  | none => (⟨w.contentType, w.body ++ [Chunk.rendered p]⟩, none)
  | some err => (⟨w.contentType, w.body ++ [Chunk.truncated p]⟩, some err)

/-! ## The handlers of `main.go` -/

/-- The handler `UploadHandler`, `main.go` lines 28-61.  The presence check returns before
anything is stored.  After a failed `Insert` the error text is written and
control falls through to the final `w.Write([]byte("success"))`: the error
branch (lines 56-58) has no `return`. -/
def UploadHandler (env : Env) (session : Collection) (r : Request) : Collection × Outcome :=
  let w := ResponseWriter.new
  let project := r.Vars "project"
  let subject := r.Vars "subject"
  if project == "" || subject == "" then
    (session, .done (w.Write "empty project or subject"))
  else
    let body := r.PostFormValue "body"
    let mimeType := r.PostFormValue "mimeType"
    let mimeType := if mimeType == "" then "html/text" else mimeType
    let timestamp := env.now
    match Insert env.storeErr env.newId session ⟨project, subject, body, timestamp, mimeType⟩ with
    | .error err => (session, .done ((w.Write err).Write "success"))
    | .ok session' => (session', .done (w.Write "success"))

/-- The entry `UploadHandler` builds from a request (`main.go` lines 50-56). -/
def uploadedEntry (env : Env) (r : Request) : LogEntry :=
  ⟨r.Vars "project", r.Vars "subject", r.PostFormValue "body", env.now,
    if r.PostFormValue "mimeType" == "" then "html/text" else r.PostFormValue "mimeType"⟩

/-- The handler `IndexHandler`, `main.go` lines 91-106. -/
def IndexHandler (env : Env) (session : Collection) (_r : Request) : Collection × Outcome :=
  let w := ResponseWriter.new
  match Distinct env.storeErr (Find session (fun _ => true)) LogEntry.Project with
  | .error err => (session, .done (w.Write err))
  | .ok result =>
    let w := w.SetContentType "text/html"
    match Execute env.execErr w (.index ⟨result⟩) with
    | (w, some err) => (session, .done (w.Write err))
    | (w, none) => (session, .done w)

/-- The handler `ProjecttHandler`, `main.go` lines 136-155. -/
def ProjecttHandler (env : Env) (session : Collection) (r : Request) : Collection × Outcome :=
  let w := ResponseWriter.new
  let project := r.Vars "project"
  match Distinct env.storeErr (Find session (fun d => d.entry.Project == project))
      LogEntry.Subject with
  | .error err => (session, .done (w.Write err))
  | .ok result =>
    let w := w.SetContentType "text/html"
    match Execute env.execErr w (.project ⟨project, result⟩) with
    | (w, some err) => (session, .done (w.Write err))
    | (w, none) => (session, .done w)

/-- The handler `SubjectHandler`, `main.go` lines 199-221. -/
def SubjectHandler (env : Env) (session : Collection) (r : Request) : Collection × Outcome :=
  let w := ResponseWriter.new
  let project := r.Vars "project"
  let subject := r.Vars "subject"
  match All env.storeErr
      (Find session (fun d => d.entry.Project == project && d.entry.Subject == subject)) with
  | .error err => (session, .done (w.Write err))
  | .ok result =>
    let w := w.SetContentType "text/html"
    match Execute env.execErr w (.subject ⟨project, subject, result⟩) with
    | (w, some err) => (session, .done (w.Write err))
    | (w, none) => (session, .done w)

/-- The query of `LogHandler`, `main.go` lines 229-231: the entry whose `_id` is `oid`. -/
def findById (env : Env) (session : Collection) (oid : ObjectId) : Except String LogEntry :=
  One env.storeErr (Find session (fun d => d.id == oid))

/-- The handler `LogHandler`, `main.go` lines 225-245.  `bson.ObjectIdHex(id)` is evaluated
while the query is built, before any store call and with no check of `id`;
both branches of the `switch` on the mime type write the body unchanged. -/
def LogHandler (env : Env) (session : Collection) (r : Request) : Collection × Outcome :=
  let w := ResponseWriter.new
  let id := r.Vars "id"
  match ObjectIdHex id with
  | .error v => (session, .panic v)
  | .ok oid =>
    match findById env session oid with
    | .error err => (session, .done (w.Write err))
    | .ok logEntry =>
      let w := w.SetContentType logEntry.MimeType
      if logEntry.MimeType == "application/json" then
        (session, .done (w.Write logEntry.Body))
      else
        (session, .done (w.Write logEntry.Body))

/-- The routes registered in `main`, `main.go` lines 264-272. -/
inductive Route where
  | index
  | upload
  | project
  | subject
  | log
  deriving DecidableEq, Repr

/-- Dispatch of a routed request to its handler, as registered in `main`. -/
def serve (route : Route) (env : Env) (session : Collection) (r : Request) :
    Collection × Outcome :=
  match route with
  | .index => IndexHandler env session r
  | .upload => UploadHandler env session r
  | .project => ProjecttHandler env session r
  | .subject => SubjectHandler env session r
  | .log => LogHandler env session r

/-- The top-level type of a media type: the text before the first `/`. -/
def topLevelType (mimeType : String) : String :=
  String.mk (mimeType.toList.takeWhile (fun ch => ch != '/'))

/-! ## Sample data -/

/-- A sample identifier, `000102030405060708090a0b` in hexadecimal. -/
def oidA : ObjectId := ⟨[0, 1, 2, 3, 4, 5, 6, 7, 8, 9, 10, 11], rfl⟩

/-- A second sample identifier, `ff0102030405060708090a0b` in hexadecimal. -/
def oidB : ObjectId := ⟨[255, 1, 2, 3, 4, 5, 6, 7, 8, 9, 10, 11], rfl⟩

/-- A third sample identifier, `0a0102030405060708090a0b` in hexadecimal. -/
def oidC : ObjectId := ⟨[10, 1, 2, 3, 4, 5, 6, 7, 8, 9, 10, 11], rfl⟩

/-- A sample environment: clock at 1700000000, store reachable, next identifier `oidA`. -/
def envA : Env := ⟨1700000000, oidA, none, none⟩

/-- A sample environment whose next identifier is `oidB`. -/
def envB : Env := ⟨1700000060, oidB, none, none⟩

/-- A sample environment in which the store call fails. -/
def envDown : Env := ⟨1700000000, oidA, some "no reachable servers", none⟩

/-- A sample upload request. -/
def reqUpload (p s b m : String) : Request :=
  ⟨[("project", p), ("subject", s)], [("body", b), ("mimeType", m)]⟩

/-- A sample request for one entry. -/
def reqLog (p s i : String) : Request :=
  ⟨[("project", p), ("subject", s), ("id", i)], []⟩

/-- Upload of `hello` as `text/plain` under project `alpha`, subject `build`. -/
def reqHello : Request := reqUpload "alpha" "build" "hello" "text/plain"

/-- The same upload with the `mimeType` form value left empty. -/
def reqNoMime : Request := reqUpload "alpha" "build" "hello" ""

/-- An upload whose project is empty. -/
def reqNoProject : Request := reqUpload "" "build" "hello" "text/plain"

/-- A stored JSON entry, filed under project `alpha` and subject `build`. -/
def docJson : Doc := ⟨oidB, ⟨"alpha", "build", "[1, 2]", 1700000060, "application/json"⟩⟩

/-! ## Lemmas on the library functions -/

theorem fromHexChar_hextable (n : Fin 16) : fromHexChar (hextable.getD n.val '0') = some n := by
  revert n; decide

theorem hexDecode_hexEncode (bs : List (Fin 256)) : hexDecode (hexEncode bs) = some bs := by
  induction bs with
  | nil => rfl
  | cons b rest ih =>
    have h1 := fromHexChar_hextable ⟨b.val / 16, by omega⟩
    have h2 := fromHexChar_hextable ⟨b.val % 16, by omega⟩
    simp only at h1 h2
    simp only [hexEncode, hexDecode, h1, h2, ih]
    congr 2
    apply Fin.ext
    simp only
    omega

theorem ObjectIdHex_Hex (i : ObjectId) : ObjectIdHex i.Hex = .ok i := by
  cases i with
  | mk bytes size =>
    simp only [ObjectIdHex, ObjectId.Hex, String.toList, hexDecode_hexEncode, size, dite_true]

theorem fromHexChar_some_isHexDigit (c : Char) (x : Fin 16) (h : fromHexChar c = some x) :
    isHexDigit c := by
  unfold fromHexChar at h
  unfold isHexDigit
  split_ifs at h with h1 h2 h3
  · exact Or.inl h1
  · exact Or.inr (Or.inl h2)
  · exact Or.inr (Or.inr h3)

theorem hexDecode_some : ∀ (l : List Char) (d : List (Fin 256)), hexDecode l = some d →
    l.length = 2 * d.length ∧ ∀ ch ∈ l, isHexDigit ch
  | [], d, h => by
    simp only [hexDecode, Option.some.injEq] at h
    subst h
    simp
  | [_], d, h => by simp [hexDecode] at h
  | a :: b :: rest, d, h => by
    simp only [hexDecode] at h
    split at h
    · rename_i x y d' hx hy hd
      simp only [Option.some.injEq] at h
      subst h
      obtain ⟨hl, hc⟩ := hexDecode_some rest d' hd
      refine ⟨by simp only [List.length_cons, hl]; omega, ?_⟩
      intro ch hch
      simp only [List.mem_cons] at hch
      rcases hch with rfl | rfl | hch
      · exact fromHexChar_some_isHexDigit _ _ hx
      · exact fromHexChar_some_isHexDigit _ _ hy
      · exact hc ch hch
    · exact Option.noConfusion h

theorem ObjectIdHex_ok_wellFormed (s : String) (oid : ObjectId) (h : ObjectIdHex s = .ok oid) :
    wellFormedId s := by
  unfold ObjectIdHex at h
  split at h
  · rename_i d hd
    split_ifs at h with hlen
    obtain ⟨hl, hc⟩ := hexDecode_some _ d hd
    refine ⟨?_, hc⟩
    show s.toList.length = 24
    omega
  · exact Except.noConfusion h

theorem ObjectIdHex_malformed (s : String) (h : ¬ wellFormedId s) :
    ObjectIdHex s = .error (.invalidObjectIdHex s) := by
  cases hres : ObjectIdHex s with
  | ok oid => exact absurd (ObjectIdHex_ok_wellFormed s oid hres) h
  | error msg =>
    unfold ObjectIdHex at hres
    split at hres
    · split_ifs at hres
      exact hres.symm ▸ rfl
    · exact hres.symm ▸ rfl

/-! ## Lemmas on the handlers -/

theorem Insert_ok_iff (storeErr : Option String) (newId : ObjectId) (c c' : Collection)
    (e : LogEntry) :
    Insert storeErr newId c e = .ok c' ↔
      storeErr = none ∧ newId ∉ ids c ∧ c' = c ++ [⟨newId, e⟩] := by
  unfold Insert
  cases storeErr with
  | some err => simp
  | none =>
    by_cases h : newId ∈ ids c
    · simp [h]
    · simp only [h, if_false, Except.ok.injEq, not_false_eq_true, true_and]
      exact eq_comm

theorem UploadHandler_inserted (env : Env) (c : Collection) (r : Request)
    (hp : r.Vars "project" ≠ "") (hs : r.Vars "subject" ≠ "")
    (hstore : env.storeErr = none) (hfresh : env.newId ∉ ids c) :
    UploadHandler env c r =
      (c ++ [⟨env.newId, uploadedEntry env r⟩], .done ⟨none, [.text "success"]⟩) := by
  have hins := (Insert_ok_iff env.storeErr env.newId c _ (uploadedEntry env r)).2
    ⟨hstore, hfresh, rfl⟩
  have hcond : (r.Vars "project" == "" || r.Vars "subject" == "") = false := by simp [hp, hs]
  simp only [uploadedEntry] at hins
  simp only [UploadHandler, hcond, Bool.false_eq_true, if_false, hins, uploadedEntry]
  rfl

theorem Find_append_fresh (c : Collection) (newId : ObjectId) (e : LogEntry)
    (hfresh : newId ∉ ids c) :
    Find (c ++ [⟨newId, e⟩]) (fun d => d.id == newId) = [⟨newId, e⟩] := by
  have hnone : c.filter (fun d => d.id == newId) = [] := by
    rw [List.filter_eq_nil_iff]
    intro d hd hid
    apply hfresh
    have : d.id = newId := by simpa using hid
    rw [← this]
    exact List.mem_map_of_mem Doc.id hd
  simp [Find, List.filter_append, hnone]

theorem findById_append_fresh (env : Env) (c : Collection) (newId : ObjectId) (e : LogEntry)
    (hstore : env.storeErr = none) (hfresh : newId ∉ ids c) :
    findById env (c ++ [⟨newId, e⟩]) newId = .ok e := by
  simp only [findById, Find_append_fresh c newId e hfresh, hstore, One]

theorem LogHandler_found (env : Env) (c : Collection) (r : Request) (oid : ObjectId)
    (e : LogEntry) (hid : ObjectIdHex (r.Vars "id") = .ok oid)
    (hfind : findById env c oid = .ok e) :
    LogHandler env c r = (c, .done ⟨some e.MimeType, [.text e.Body]⟩) := by
  simp only [LogHandler, hid, hfind, ite_self]
  rfl

theorem UploadHandler_invalid (env : Env) (c : Collection) (r : Request)
    (h : r.Vars "project" = "" ∨ r.Vars "subject" = "") :
    UploadHandler env c r = (c, .done ⟨none, [.text "empty project or subject"]⟩) := by
  have hcond : (r.Vars "project" == "" || r.Vars "subject" == "") = true := by
    rcases h with h | h <;> simp [h]
  simp only [UploadHandler, hcond, if_true]
  rfl

theorem UploadHandler_insert_error (env : Env) (c : Collection) (r : Request) (err : String)
    (hp : r.Vars "project" ≠ "") (hs : r.Vars "subject" ≠ "")
    (hins : Insert env.storeErr env.newId c (uploadedEntry env r) = .error err) :
    UploadHandler env c r = (c, .done ⟨none, [.text err, .text "success"]⟩) := by
  have hcond : (r.Vars "project" == "" || r.Vars "subject" == "") = false := by simp [hp, hs]
  simp only [uploadedEntry] at hins
  simp only [UploadHandler, hcond, Bool.false_eq_true, if_false, hins, uploadedEntry]
  rfl

/-- When the response of `UploadHandler` is the success signal alone, the request was
valid and the insert went through with a fresh identifier. -/
theorem UploadHandler_success_only (env : Env) (c : Collection) (r : Request)
    (h : (UploadHandler env c r).2 = .done ⟨none, [.text "success"]⟩) :
    r.Vars "project" ≠ "" ∧ r.Vars "subject" ≠ "" ∧ env.storeErr = none ∧ env.newId ∉ ids c := by
  by_cases hv : r.Vars "project" = "" ∨ r.Vars "subject" = ""
  · rw [UploadHandler_invalid env c r hv] at h
    simp at h
  · have hp : r.Vars "project" ≠ "" := fun hp => hv (Or.inl hp)
    have hs : r.Vars "subject" ≠ "" := fun hs => hv (Or.inr hs)
    cases hins : Insert env.storeErr env.newId c (uploadedEntry env r) with
    | error err =>
      rw [UploadHandler_insert_error env c r err hp hs hins] at h
      simp at h
    | ok c' =>
      obtain ⟨h1, h2, _⟩ := (Insert_ok_iff _ _ _ _ _).1 hins
      exact ⟨hp, hs, h1, h2⟩

theorem UploadHandler_store (env : Env) (c : Collection) (r : Request) :
    (UploadHandler env c r).1 = c ∨
      ((UploadHandler env c r).1 = c ++ [⟨env.newId, uploadedEntry env r⟩] ∧
        env.newId ∉ ids c) := by
  by_cases hv : r.Vars "project" = "" ∨ r.Vars "subject" = ""
  · rw [UploadHandler_invalid env c r hv]
    exact Or.inl rfl
  · have hp : r.Vars "project" ≠ "" := fun hp => hv (Or.inl hp)
    have hs : r.Vars "subject" ≠ "" := fun hs => hv (Or.inr hs)
    cases hins : Insert env.storeErr env.newId c (uploadedEntry env r) with
    | error err =>
      rw [UploadHandler_insert_error env c r err hp hs hins]
      exact Or.inl rfl
    | ok c' =>
      obtain ⟨h1, h2, _⟩ := (Insert_ok_iff _ _ _ _ _).1 hins
      rw [UploadHandler_inserted env c r hp hs h1 h2]
      exact Or.inr ⟨rfl, h2⟩

theorem IndexHandler_store (env : Env) (c : Collection) (r : Request) :
    (IndexHandler env c r).1 = c := by
  simp only [IndexHandler]
  split
  · rfl
  · split <;> rfl

theorem ProjecttHandler_store (env : Env) (c : Collection) (r : Request) :
    (ProjecttHandler env c r).1 = c := by
  simp only [ProjecttHandler]
  split
  · rfl
  · split <;> rfl

theorem SubjectHandler_store (env : Env) (c : Collection) (r : Request) :
    (SubjectHandler env c r).1 = c := by
  simp only [SubjectHandler]
  split
  · rfl
  · split <;> rfl

theorem LogHandler_store (env : Env) (c : Collection) (r : Request) :
    (LogHandler env c r).1 = c := by
  simp only [LogHandler]
  split
  · rfl
  · split
    · rfl
    · split <;> rfl

theorem findById_of_mem (env : Env) (hstore : env.storeErr = none) :
    ∀ (c : Collection) (e : Doc), (ids c).Nodup → e ∈ c → findById env c e.id = .ok e.entry
  | [], e, _, he => by simp at he
  | d :: t, e, hnd, he => by
    have hnd' : d.id ∉ ids t ∧ (ids t).Nodup := by
      simpa [ids] using hnd
    rcases List.mem_cons.1 he with rfl | het
    · simp [findById, Find, One, hstore, List.filter_cons]
    · have hne : (d.id == e.id) = false := by
        rw [beq_eq_false_iff_ne]
        intro heq
        apply hnd'.1
        rw [heq]
        exact List.mem_map_of_mem Doc.id het
      have ih := findById_of_mem env hstore t e hnd'.2 het
      simp only [findById, Find, List.filter_cons, hne, Bool.false_eq_true, if_false] at ih ⊢
      exact ih

theorem findById_of_not_mem (env : Env) (c : Collection) (oid : ObjectId)
    (hstore : env.storeErr = none) (habsent : oid ∉ ids c) :
    findById env c oid = .error "not found" := by
  have hnone : c.filter (fun d => d.id == oid) = [] := by
    rw [List.filter_eq_nil_iff]
    intro d hd hid
    apply habsent
    have : d.id = oid := by simpa using hid
    rw [← this]
    exact List.mem_map_of_mem Doc.id hd
  simp only [findById, Find, hnone, hstore, One]

/-- On a well-formed identifier that no stored entry has, `LogHandler` writes
the store's `not found` error and nothing of any entry. -/
theorem LogHandler_absent_id (env : Env) (c : Collection) (r : Request) (oid : ObjectId)
    (hstore : env.storeErr = none) (hid : ObjectIdHex (r.Vars "id") = .ok oid)
    (habsent : oid ∉ ids c) :
    LogHandler env c r = (c, .done ⟨none, [.text "not found"]⟩) := by
  simp only [LogHandler, hid, findById_of_not_mem env c oid hstore habsent]
  rfl

/-! ## Claims -/

/-- C1 (round trip): when an upload with non-empty project, subject and mime type
answers with the success signal alone, at clock time `env.now` and with the store
assigning `env.newId`, then on the resulting store the hexadecimal form of that
identifier decodes back to it, the lookup by that identifier yields the record
with the uploaded project, subject, body and mime type and timestamp `env.now`,
and `LogHandler` answers with that mime type as `Content-Type` and that body. -/
theorem upload_then_log_round_trip (env env' : Env) (c : Collection) (r r' : Request)
    (hp : r.Vars "project" ≠ "") (hs : r.Vars "subject" ≠ "")
    (hm : r.PostFormValue "mimeType" ≠ "")
    (hsucc : (UploadHandler env c r).2 = .done ⟨none, [.text "success"]⟩)
    (hstore' : env'.storeErr = none) (hid : r'.Vars "id" = env.newId.Hex) :
    ObjectIdHex (r'.Vars "id") = .ok env.newId ∧
    findById env' (UploadHandler env c r).1 env.newId =
      .ok ⟨r.Vars "project", r.Vars "subject", r.PostFormValue "body", env.now,
        r.PostFormValue "mimeType"⟩ ∧
    LogHandler env' (UploadHandler env c r).1 r' =
      ((UploadHandler env c r).1,
        .done ⟨some (r.PostFormValue "mimeType"), [.text (r.PostFormValue "body")]⟩) := by
  obtain ⟨_, _, hstore, hfresh⟩ := UploadHandler_success_only env c r hsucc
  have hdec : ObjectIdHex (r'.Vars "id") = .ok env.newId := by rw [hid]; exact ObjectIdHex_Hex _
  have hent : uploadedEntry env r = ⟨r.Vars "project", r.Vars "subject",
      r.PostFormValue "body", env.now, r.PostFormValue "mimeType"⟩ := by
    simp [uploadedEntry, hm]
  rw [UploadHandler_inserted env c r hp hs hstore hfresh, hent]
  have hfind := findById_append_fresh env' c env.newId
    ⟨r.Vars "project", r.Vars "subject", r.PostFormValue "body", env.now,
      r.PostFormValue "mimeType"⟩ hstore' hfresh
  exact ⟨hdec, hfind, LogHandler_found env' _ r' env.newId _ hdec hfind⟩

/-- Witness of C1: uploading `hello` as `text/plain` into the empty store at
1700000000, then requesting the new identifier under another address. -/
theorem upload_then_log_round_trip_witness :
    findById envB (UploadHandler envA [] reqHello).1 oidA =
      .ok ⟨"alpha", "build", "hello", 1700000000, "text/plain"⟩ ∧
    LogHandler envB (UploadHandler envA [] reqHello).1 (reqLog "x" "y" "000102030405060708090a0b") =
      ([⟨oidA, ⟨"alpha", "build", "hello", 1700000000, "text/plain"⟩⟩],
        .done ⟨some "text/plain", [.text "hello"]⟩) :=
  ⟨(upload_then_log_round_trip envA envB [] reqHello (reqLog "x" "y" "000102030405060708090a0b")
      (by decide) (by decide) (by decide) (by decide) rfl (by decide)).2.1,
   (upload_then_log_round_trip envA envB [] reqHello (reqLog "x" "y" "000102030405060708090a0b")
      (by decide) (by decide) (by decide) (by decide) rfl (by decide)).2.2⟩

/-- C2: when an upload with non-empty project and subject answers with the success
signal alone, the subject page for the same project and subject, on the resulting
store, lists the headers that were there before followed by the header of the new
entry: its identifier `env.newId`, absent from the store before, with timestamp
`env.now`. -/
theorem upload_then_subject_lists_new_header (env env' : Env) (c : Collection) (r r' : Request)
    (hp : r.Vars "project" ≠ "") (hs : r.Vars "subject" ≠ "")
    (hsucc : (UploadHandler env c r).2 = .done ⟨none, [.text "success"]⟩)
    (hstore' : env'.storeErr = none) (hexec' : env'.execErr = none)
    (hrp : r'.Vars "project" = r.Vars "project") (hrs : r'.Vars "subject" = r.Vars "subject") :
    ∃ old : List LogHeader,
      SubjectHandler env' c r' = (c, .done ⟨some "text/html",
        [.rendered (.subject ⟨r.Vars "project", r.Vars "subject", old⟩)]⟩) ∧
      SubjectHandler env' (UploadHandler env c r).1 r' = ((UploadHandler env c r).1,
        .done ⟨some "text/html", [.rendered (.subject ⟨r.Vars "project", r.Vars "subject",
          old ++ [⟨env.newId, env.now⟩]⟩)]⟩) ∧
      env.newId ∉ old.map LogHeader.ID := by
  obtain ⟨_, _, hstore, hfresh⟩ := UploadHandler_success_only env c r hsucc
  rw [UploadHandler_inserted env c r hp hs hstore hfresh]
  refine ⟨(Find c (fun d => d.entry.Project == r.Vars "project" &&
      d.entry.Subject == r.Vars "subject")).map (fun d => ⟨d.id, d.entry.Timestamp⟩), ?_, ?_, ?_⟩
  · simp only [SubjectHandler, hrp, hrs, All, hstore', Execute, hexec']
    rfl
  · simp only [SubjectHandler, hrp, hrs, All, hstore', Execute, hexec', Find, List.filter_append,
      List.map_append, uploadedEntry]
    simp [ResponseWriter.SetContentType, ResponseWriter.new]
  · intro hmem
    apply hfresh
    simp only [Find, List.map_map, List.mem_map, Function.comp] at hmem
    obtain ⟨d, hd, hdid⟩ := hmem
    rw [← hdid]
    exact List.mem_map_of_mem Doc.id (List.mem_of_mem_filter hd)

/-- Witness of C2: after uploading into the empty store, the subject page of
`alpha`/`build` lists exactly the new header. -/
theorem upload_then_subject_lists_new_header_witness :
    ∃ old : List LogHeader,
      SubjectHandler envB [] (reqLog "alpha" "build" "") = ([], .done ⟨some "text/html",
        [.rendered (.subject ⟨"alpha", "build", old⟩)]⟩) ∧
      SubjectHandler envB (UploadHandler envA [] reqHello).1 (reqLog "alpha" "build" "") =
        ((UploadHandler envA [] reqHello).1,
          .done ⟨some "text/html", [.rendered (.subject ⟨"alpha", "build",
            old ++ [⟨oidA, 1700000000⟩]⟩)]⟩) ∧
      oidA ∉ old.map LogHeader.ID :=
  upload_then_subject_lists_new_header envA envB [] reqHello (reqLog "alpha" "build" "")
    (by decide) (by decide) (by decide) rfl rfl (by decide) (by decide)

/-- C3: an upload whose project or subject is empty answers
`empty project or subject`, not the success signal, and returns the store exactly
as it was: nothing is inserted. -/
theorem upload_empty_project_or_subject_rejected (env : Env) (c : Collection) (r : Request)
    (h : r.Vars "project" = "" ∨ r.Vars "subject" = "") :
    UploadHandler env c r = (c, .done ⟨none, [.text "empty project or subject"]⟩) ∧
    (UploadHandler env c r).1 = c ∧
    Chunk.text "success" ∉ (match (UploadHandler env c r).2 with
      | .done w => w.body
      | .panic _ => []) := by
  rw [UploadHandler_invalid env c r h]
  exact ⟨rfl, rfl, by simp⟩

/-- Witness of C3: an upload with an empty project into a store holding one entry. -/
theorem upload_empty_project_or_subject_rejected_witness :
    UploadHandler envB [⟨oidA, ⟨"alpha", "build", "hello", 1700000000, "text/plain"⟩⟩]
        reqNoProject =
      ([⟨oidA, ⟨"alpha", "build", "hello", 1700000000, "text/plain"⟩⟩],
        .done ⟨none, [.text "empty project or subject"]⟩) :=
  (upload_empty_project_or_subject_rejected envB
    [⟨oidA, ⟨"alpha", "build", "hello", 1700000000, "text/plain"⟩⟩] reqNoProject
    (Or.inl (by decide))).1

/-- C4 (what the code does): when the request is valid and the store reports an
error for the insert, `UploadHandler` writes the error text and then, having no
`return` in the error branch, also writes `success`; the store is unchanged. -/
theorem upload_insert_failure_also_writes_success (env : Env) (c : Collection) (r : Request)
    (err : String) (hp : r.Vars "project" ≠ "") (hs : r.Vars "subject" ≠ "")
    (hfail : env.storeErr = some err) :
    UploadHandler env c r = (c, .done ⟨none, [.text err, .text "success"]⟩) := by
  apply UploadHandler_insert_error env c r err hp hs
  simp only [Insert, hfail]

/-- Witness of C4: a valid upload while the store is unreachable. -/
theorem upload_insert_failure_also_writes_success_witness :
    UploadHandler envDown [] reqHello =
      ([], .done ⟨none, [.text "no reachable servers", .text "success"]⟩) :=
  upload_insert_failure_also_writes_success envDown [] reqHello "no reachable servers"
    (by decide) (by decide) rfl

/-- C5 (what the code does): when the `id` route variable is not 24 hexadecimal
characters, `LogHandler` panics inside `bson.ObjectIdHex`, on that input, before
it queries the store: it ends with a panic, not with a written error, and the store
is unchanged. -/
theorem log_malformed_id_panics (env : Env) (c : Collection) (r : Request)
    (h : ¬ wellFormedId (r.Vars "id")) :
    LogHandler env c r = (c, .panic (.invalidObjectIdHex (r.Vars "id"))) := by
  simp only [LogHandler, ObjectIdHex_malformed _ h]

/-- Witness of C5: the identifier `xyz`. -/
theorem log_malformed_id_panics_witness :
    LogHandler envA [] (reqLog "alpha" "build" "xyz") = ([], .panic (.invalidObjectIdHex "xyz")) :=
  log_malformed_id_panics envA [] (reqLog "alpha" "build" "xyz") (by decide)

/-- C6 (what the code does): when a valid upload leaves `mimeType` empty and answers
with the success signal alone, the stored entry has mime type `html/text`, and
`LogHandler` serves it with `Content-Type: html/text`; the top-level type of that
value is `html`, not `text`. -/
theorem upload_default_mime_type_is_html_text (env env' : Env) (c : Collection) (r r' : Request)
    (hp : r.Vars "project" ≠ "") (hs : r.Vars "subject" ≠ "")
    (hm : r.PostFormValue "mimeType" = "")
    (hsucc : (UploadHandler env c r).2 = .done ⟨none, [.text "success"]⟩)
    (hstore' : env'.storeErr = none) (hid : r'.Vars "id" = env.newId.Hex) :
    findById env' (UploadHandler env c r).1 env.newId =
      .ok ⟨r.Vars "project", r.Vars "subject", r.PostFormValue "body", env.now, "html/text"⟩ ∧
    LogHandler env' (UploadHandler env c r).1 r' =
      ((UploadHandler env c r).1,
        .done ⟨some "html/text", [.text (r.PostFormValue "body")]⟩) ∧
    topLevelType "html/text" = "html" ∧ topLevelType "html/text" ≠ "text" := by
  obtain ⟨_, _, hstore, hfresh⟩ := UploadHandler_success_only env c r hsucc
  have hdec : ObjectIdHex (r'.Vars "id") = .ok env.newId := by rw [hid]; exact ObjectIdHex_Hex _
  have hent : uploadedEntry env r = ⟨r.Vars "project", r.Vars "subject",
      r.PostFormValue "body", env.now, "html/text"⟩ := by
    simp [uploadedEntry, hm]
  rw [UploadHandler_inserted env c r hp hs hstore hfresh, hent]
  have hfind := findById_append_fresh env' c env.newId
    ⟨r.Vars "project", r.Vars "subject", r.PostFormValue "body", env.now, "html/text"⟩
    hstore' hfresh
  exact ⟨hfind, LogHandler_found env' _ r' env.newId _ hdec hfind, by decide, by decide⟩

/-- Witness of C6: uploading `hello` with an empty `mimeType` into the empty store. -/
theorem upload_default_mime_type_is_html_text_witness :
    LogHandler envB (UploadHandler envA [] reqNoMime).1
        (reqLog "alpha" "build" "000102030405060708090a0b") =
      ([⟨oidA, ⟨"alpha", "build", "hello", 1700000000, "html/text"⟩⟩],
        .done ⟨some "html/text", [.text "hello"]⟩) :=
  (upload_default_mime_type_is_html_text envA envB [] reqNoMime
    (reqLog "alpha" "build" "000102030405060708090a0b")
    (by decide) (by decide) (by decide) (by decide) rfl (by decide)).2.1

/-- C7: with the store reachable and the template executing, `IndexHandler`
renders the index page over a list of projects that has no duplicates and whose
members are exactly the project values of the stored entries; each such project
occurs exactly once, however many entries share it.  The store is unchanged. -/
theorem index_lists_each_project_once (now : Int) (newId : ObjectId) (c : Collection)
    (r : Request) :
    ∃ result : List String,
      IndexHandler ⟨now, newId, none, none⟩ c r =
        (c, .done ⟨some "text/html", [.rendered (.index ⟨result⟩)]⟩) ∧
      result.Nodup ∧
      (∀ p, p ∈ result ↔ ∃ d ∈ c, d.entry.Project = p) ∧
      (∀ d ∈ c, result.count d.entry.Project = 1) := by
  refine ⟨(c.map (fun d => d.entry.Project)).dedup, ?_, List.nodup_dedup _, ?_, ?_⟩
  · simp only [IndexHandler, Distinct, Find, List.filter_true, Execute]
    rfl
  · intro p
    simp only [List.mem_dedup, List.mem_map]
  · intro d hd
    apply List.count_eq_one_of_mem (List.nodup_dedup _)
    rw [List.mem_dedup]
    exact List.mem_map_of_mem (fun d => d.entry.Project) hd

/-- C8: with the store reachable and the template executing, `ProjecttHandler`
renders the project page over a list of subjects that has no duplicates and whose
members are exactly the subject values of the stored entries whose project equals
the requested one; when no stored entry has that project the list is empty and the
page is rendered all the same.  The store is unchanged. -/
theorem project_lists_subjects_of_project (now : Int) (newId : ObjectId) (c : Collection)
    (r : Request) :
    ∃ result : List String,
      ProjecttHandler ⟨now, newId, none, none⟩ c r =
        (c, .done ⟨some "text/html", [.rendered (.project ⟨r.Vars "project", result⟩)]⟩) ∧
      result.Nodup ∧
      (∀ s, s ∈ result ↔ ∃ d ∈ c, d.entry.Project = r.Vars "project" ∧ d.entry.Subject = s) ∧
      ((∀ d ∈ c, d.entry.Project ≠ r.Vars "project") → result = []) := by
  refine ⟨((Find c (fun d => d.entry.Project == r.Vars "project")).map
    (fun d => d.entry.Subject)).dedup, ?_, List.nodup_dedup _, ?_, ?_⟩
  · simp only [ProjecttHandler, Distinct, Execute]
    rfl
  · intro s
    simp only [List.mem_dedup, List.mem_map, Find, List.mem_filter, beq_iff_eq, and_assoc]
  · intro hnone
    have hfilter : Find c (fun d => d.entry.Project == r.Vars "project") = [] := by
      simp only [Find, List.filter_eq_nil_iff, beq_iff_eq]
      exact hnone
    rw [hfilter]
    rfl

/-- C9 (append-only): for every route, environment, store and request, the store
after the request is the store before it followed by at most one new document, so
every document present before is present afterwards, unchanged; every route other
than upload returns the store as it was; an upload that answers with the success
signal alone adds exactly one document, whose identifier was absent from the store;
and identifiers stay pairwise distinct. -/
theorem serve_append_only (route : Route) (env : Env) (c : Collection) (r : Request) :
    (∃ added : List Doc, (serve route env c r).1 = c ++ added ∧ added.length ≤ 1) ∧
    (∀ d ∈ c, d ∈ (serve route env c r).1) ∧
    (route ≠ .upload → (serve route env c r).1 = c) ∧
    ((serve .upload env c r).2 = .done ⟨none, [.text "success"]⟩ →
      (serve .upload env c r).1 = c ++ [⟨env.newId, uploadedEntry env r⟩] ∧
        env.newId ∉ ids c) ∧
    ((ids c).Nodup → (ids (serve route env c r).1).Nodup) := by
  have hread : route ≠ .upload → (serve route env c r).1 = c := by
    intro hne
    cases route with
    | index => exact IndexHandler_store env c r
    | upload => exact absurd rfl hne
    | project => exact ProjecttHandler_store env c r
    | subject => exact SubjectHandler_store env c r
    | log => exact LogHandler_store env c r
  have hstep : (serve route env c r).1 = c ∨
      ((serve route env c r).1 = c ++ [⟨env.newId, uploadedEntry env r⟩] ∧
        env.newId ∉ ids c) := by
    by_cases hne : route = .upload
    · subst hne
      exact UploadHandler_store env c r
    · exact Or.inl (hread hne)
  refine ⟨?_, ?_, hread, ?_, ?_⟩
  · rcases hstep with h | ⟨h, _⟩
    · exact ⟨[], by rw [h, List.append_nil], by simp⟩
    · exact ⟨[⟨env.newId, uploadedEntry env r⟩], h, by simp⟩
  · intro d hd
    rcases hstep with h | ⟨h, _⟩
    · rw [h]; exact hd
    · rw [h]; exact List.mem_append_left _ hd
  · intro hsucc
    obtain ⟨hp, hs, hstore, hfresh⟩ := UploadHandler_success_only env c r hsucc
    exact ⟨congrArg Prod.fst (UploadHandler_inserted env c r hp hs hstore hfresh), hfresh⟩
  · intro hnd
    rcases hstep with h | ⟨h, hfresh⟩
    · rw [h]; exact hnd
    · rw [h]
      simp only [ids, List.map_append, List.map_cons, List.map_nil]
      rw [List.nodup_append]
      refine ⟨hnd, List.nodup_singleton _, ?_⟩
      intro x hx hx'
      rw [List.mem_singleton] at hx'
      subst hx'
      exact hfresh hx

/-- C10: when the store is reachable, identifiers are pairwise distinct and the
`id` route variable decodes to the identifier of a stored document `e`,
`LogHandler` answers with `Content-Type` equal to the mime type of `e` and with the
body of `e` as its only write, whatever the mime type; and every request with the
same `id` variable gets the same answer, whatever its project and subject
variables. -/
theorem log_response_determined_by_id (env : Env) (c : Collection) (r : Request) (e : Doc)
    (hstore : env.storeErr = none) (hnodup : (ids c).Nodup) (he : e ∈ c)
    (hid : ObjectIdHex (r.Vars "id") = .ok e.id) :
    LogHandler env c r = (c, .done ⟨some e.entry.MimeType, [.text e.entry.Body]⟩) ∧
    ∀ r' : Request, r'.Vars "id" = r.Vars "id" → LogHandler env c r' = LogHandler env c r := by
  refine ⟨LogHandler_found env c r e.id e.entry hid (findById_of_mem env hstore c e hnodup he), ?_⟩
  intro r' hsame
  simp only [LogHandler, hsame]

/-- Witness of C10: a JSON entry requested under a project and subject that are
not its own. -/
theorem log_response_determined_by_id_witness :
    LogHandler envA [docJson] (reqLog "other" "thing" "ff0102030405060708090a0b") =
        ([docJson], .done ⟨some "application/json", [.text "[1, 2]"]⟩) ∧
    LogHandler envA [docJson] (reqLog "alpha" "build" "ff0102030405060708090a0b") =
      LogHandler envA [docJson] (reqLog "other" "thing" "ff0102030405060708090a0b") :=
  ⟨(log_response_determined_by_id envA [docJson]
      (reqLog "other" "thing" "ff0102030405060708090a0b") docJson rfl (by decide)
      (List.mem_singleton.2 rfl) rfl).1,
   (log_response_determined_by_id envA [docJson]
      (reqLog "other" "thing" "ff0102030405060708090a0b") docJson rfl (by decide)
      (List.mem_singleton.2 rfl) rfl).2
      (reqLog "alpha" "build" "ff0102030405060708090a0b") (by decide)⟩

/-! ## Evaluations on sample stores -/

/-- Three uploads under project `alpha`: the index lists `alpha` once. -/
theorem index_three_uploads_alpha :
    IndexHandler envA
        [⟨oidA, ⟨"alpha", "build", "one", 1, "text/plain"⟩⟩,
         ⟨oidC, ⟨"alpha", "test", "two", 2, "text/plain"⟩⟩,
         docJson] (reqLog "" "" "") =
      ([⟨oidA, ⟨"alpha", "build", "one", 1, "text/plain"⟩⟩,
        ⟨oidC, ⟨"alpha", "test", "two", 2, "text/plain"⟩⟩,
        docJson],
       .done ⟨some "text/html", [.rendered (.index ⟨["alpha"]⟩)]⟩) := by
  decide

/-- The subjects of a project nobody uploaded to: an empty page, not an error. -/
theorem project_page_of_unknown_project :
    ProjecttHandler envA [docJson] (reqLog "nonexistent-project" "" "") =
      ([docJson], .done ⟨some "text/html",
        [.rendered (.project ⟨"nonexistent-project", []⟩)]⟩) := by
  decide

/-- Hexadecimal decoding accepts upper-case digits: the upper-case spelling of a
stored identifier reaches the same entry. -/
theorem log_upper_case_id :
    LogHandler envA [docJson] (reqLog "alpha" "build" "FF0102030405060708090A0B") =
      ([docJson], .done ⟨some "application/json", [.text "[1, 2]"]⟩) := by
  decide

/-- A well-formed identifier that no stored entry has: `not found` is written. -/
theorem log_absent_id_not_found :
    LogHandler envA [docJson] (reqLog "alpha" "build" "000102030405060708090a0b") =
      ([docJson], .done ⟨none, [.text "not found"]⟩) := by
  decide

/-- An identifier made of a single carriage return is rejected like any other
malformed one: the handler panics on it and leaves the store as it was. -/
theorem log_carriage_return_id_panics :
    LogHandler envA [docJson] (reqLog "alpha" "build" "\r") =
      ([docJson], .panic (.invalidObjectIdHex "\r")) := by
  decide

end Logx
